import Mathlib

/-!
Verification development for the AI learning-buddy application.

The definitions below are a shallow embedding of the application's audio
plumbing and session/state management:

* base64 transport (the browser built-ins `btoa`/`atob`, modelled on byte
  lists), the source helpers `encode`, `decode`, `decodeAudioData` and
  `createBlob` (16-bit PCM encode/decode);
* the live-session `onmessage` callback (transcript buffers, turn
  completion, playback-clock scheduling);
* `stopConversation` and the `onerror` failure path of the `TutorPanel`;
* `handlePlayExplanation` / `stopCurrentAudio` of the `ExamPanel`;
* `handleExamComplete` of the `App` component;
* `generateExam`, `gradeExam` and `generateSpeech` of `geminiService`.

Machine arithmetic follows the ECMAScript semantics of the source: the
`Int16Array` element store truncates towards zero and wraps modulo 2^16;
samples are exact rationals.  Remote-service calls are modelled by an
`Except`/`Option` outcome parameter, reifying "the call rejected" and
"the call resolved with this payload".
-/

namespace AITutor

/-! ## Base64 (browser built-ins btoa / atob, modelled on byte values)

The source's `encode` builds a binary string whose character codes are the
byte values and feeds it to `btoa`; `decode` applies `atob` and reads the
character codes back.  The intermediate string is the identity on byte
values, so both built-ins are modelled directly on lists of bytes. -/

/-- The base64 alphabet used by `btoa`/`atob`. -/
def base64Alphabet : List Char :=
  "ABCDEFGHIJKLMNOPQRSTUVWXYZabcdefghijklmnopqrstuvwxyz0123456789+/".toList

/-- The alphabet character of a 6-bit group. -/
def b64c (n : Nat) : Char := base64Alphabet.getD n 'A'

/-- The 6-bit group of an alphabet character (left inverse of `b64c`). -/
def b64d (c : Char) : Nat := base64Alphabet.indexOf c

/-- Model of the browser built-in `btoa` on a list of byte values:
groups of three bytes become four alphabet characters, a short final group
is padded with `=`. -/
def btoa : List Nat → List Char
  | [] => []
  | [b0] => [b64c (b0 / 4), b64c (b0 % 4 * 16), '=', '=']
  | [b0, b1] => [b64c (b0 / 4), b64c (b0 % 4 * 16 + b1 / 16), b64c (b1 % 16 * 4), '=']
  | b0 :: b1 :: b2 :: rest =>
    b64c (b0 / 4) :: b64c (b0 % 4 * 16 + b1 / 16) :: b64c (b1 % 16 * 4 + b2 / 64) ::
      b64c (b2 % 64) :: btoa rest

/-- Model of the browser built-in `atob` on well-formed `btoa` output:
groups of four characters become three bytes, a `=`-padded final group
becomes one or two bytes. -/
def atob : List Char → List Nat
  | c0 :: c1 :: c2 :: c3 :: rest =>
    let s0 := b64d c0
    let s1 := b64d c1
    if c2 = '=' then [s0 * 4 + s1 / 16]
    else
      let s2 := b64d c2
      if c3 = '=' then [s0 * 4 + s1 / 16, s1 % 16 * 16 + s2 / 4]
      else (s0 * 4 + s1 / 16) :: (s1 % 16 * 16 + s2 / 4) :: (s2 % 4 * 64 + b64d c3) :: atob rest
  | _ => []

/-- Source helper `encode` (bytes → binary string → `btoa`). -/
def encode (bytes : List Nat) : List Char := btoa bytes

/-- Source helper `decode` (`atob` → byte values of the binary string). -/
def decode (base64 : List Char) : List Nat := atob base64

/-! ## 16-bit PCM encode / decode

`createBlob` stores `data[i] * 32768` into an `Int16Array`: per ECMAScript
`ToInt16`, the number is truncated towards zero and reduced modulo 2^16 into
the signed 16-bit range.  `decodeAudioData` reads the bytes back through an
`Int16Array` view (little-endian) and divides by 32768. -/

/-- Truncation towards zero of a rational (ECMAScript `ToIntegerOrInfinity`). -/
def ratTrunc (q : ℚ) : ℤ := if 0 ≤ q then ⌊q⌋ else -⌊-q⌋

/-- ECMAScript `ToInt16`: truncate towards zero, reduce modulo 2^16, interpret
the result as a signed 16-bit value. -/
def toInt16 (q : ℚ) : ℤ :=
  let m := ratTrunc q % 65536
  if m < 32768 then m else m - 65536

/-- The two little-endian bytes of one `Int16Array` element, as exposed by a
`Uint8Array` view of its buffer. -/
def int16ToBytesLE (v : ℤ) : List Nat :=
  let u := (v % 65536).toNat
  [u % 256, u / 256]

/-- A 16-bit unsigned value reinterpreted as a signed `Int16Array` element. -/
def uint16ToSigned (u : Nat) : ℤ := if u < 32768 then (u : ℤ) else (u : ℤ) - 65536

/-- The `Int16Array` view over a little-endian byte buffer.  The source's
`new Int16Array(data.buffer)` requires an even byte length (the constructor
throws otherwise); this pipeline only ever produces even lengths. -/
def bytesToInt16LE : List Nat → List ℤ
  | b0 :: b1 :: rest => uint16ToSigned (b0 + 256 * b1) :: bytesToInt16LE rest
  | _ => []

/-- Source helper `decodeAudioData`: reinterpret the bytes as 16-bit signed
samples, split frames across channels, and divide each sample by 32768.0.
Returns the per-channel `channelData` arrays (the `sampleRate` argument only
tags the resulting buffer and does not affect sample values). -/
def decodeAudioData (data : List Nat) (numChannels : Nat) : List (List ℚ) :=
  let dataInt16 := bytesToInt16LE data
  let frameCount := dataInt16.length / numChannels
  (List.range numChannels).map (fun channel =>
    (List.range frameCount).map (fun i =>
      ((dataInt16.getD (i * numChannels + channel) 0 : ℚ) / 32768)))

/-- The `duration` of the `AudioBuffer` produced by `decodeAudioData`:
`frameCount / sampleRate` seconds. -/
def audioBufferDuration (data : List Nat) (sampleRate numChannels : Nat) : ℚ :=
  (((bytesToInt16LE data).length / numChannels : Nat) : ℚ) / (sampleRate : ℚ)

/-- An outbound realtime chunk (the `Blob` shape of the service API). -/
structure GenaiBlob where
  data : List Char
  mimeType : String
deriving DecidableEq

/-- Source helper `createBlob`: scale each float sample by 32768 into an
`Int16Array`, view its buffer as bytes, base64-encode, and tag with the
16 kHz PCM MIME type. -/
def createBlob (data : List ℚ) : GenaiBlob :=
  let int16 := data.map (fun x => toInt16 (x * 32768))
  { data := encode (int16.flatMap int16ToBytesLE)
    mimeType := "audio/pcm;rate=16000" }

/-- The full inbound decoding applied to an outbound chunk: `decode` then
`decodeAudioData` at 24 kHz mono, taking the single channel. -/
def roundTrip (frame : List ℚ) : List ℚ :=
  (decodeAudioData (decode (createBlob frame).data) 1).getD 0 []

/-- The round-trip recovery property claimed by the spec for a frame. -/
def recoveredWithinBound (frame : List ℚ) : Prop :=
  (roundTrip frame).length = frame.length ∧
  ∀ i, i < frame.length → |(roundTrip frame).getD i 0 - frame.getD i 0| ≤ 1 / 32768

/-- Spec-side description of the outbound chunk payload: the base64 encoding
of the frame's samples converted, sample by sample, to 16-bit little-endian
signed PCM (without the `Int16Array` / `Uint8Array` buffer staging the source
goes through). -/
def specOutboundData (frame : List ℚ) : List Char :=
  btoa (frame.flatMap (fun x => int16ToBytesLE (toInt16 (x * 32768))))

/-! ## The live-session `onmessage` callback (TutorPanel)

State visible to the callback: the two transcript fragment buffers
(`transcriptRefs.current`), the `transcripts` list, the playback clock
`nextStartTime` and the live `sources` set.  The callback's effect on the
output audio context is reified as an optional scheduled chunk
(start time, duration). -/

/-- Transcript speaker tag (types.ts). -/
inductive Speaker
  | user
  | tutor
deriving DecidableEq

/-- A finalized transcript entry (types.ts `Transcript`). -/
structure Transcript where
  id : Nat
  speaker : Speaker
  text : String
  image : Option String := none
deriving DecidableEq

/-- The fields of a `LiveServerMessage` the handler consumes:
`serverContent.inputTranscription.text`, `serverContent.outputTranscription.text`,
`serverContent.turnComplete` and `serverContent.modelTurn.parts[0].inlineData.data`
(a base64 payload). -/
structure LiveServerContent where
  inputTranscription : Option String
  outputTranscription : Option String
  turnComplete : Bool
  modelTurnAudio : Option (List Char)

/-- The mutable state the `onmessage` callback reads and writes. -/
structure LiveSessionState where
  currentInput : String
  currentOutput : String
  transcripts : List Transcript
  nextStartTime : ℚ
  sources : List Nat

/-- The `onmessage` callback.  `currentTime` is the output audio context's
clock at the `Math.max` line, `now` the `Date.now()` stamp, `nodeId` the
fresh buffer-source node.  Returns the new state and the scheduled chunk
(start time and buffer duration), if the message carried audio. -/
def onmessage (st : LiveSessionState) (msg : LiveServerContent) (currentTime : ℚ)
    (now nodeId : Nat) : LiveSessionState × Option (ℚ × ℚ) :=
  let co := match msg.outputTranscription with
    | some t => st.currentOutput ++ t
    | none => st.currentOutput
  let ci := match msg.inputTranscription with
    | some t => st.currentInput ++ t
    | none => st.currentInput
  let afterTurn :=
    if msg.turnComplete then
      { st with
        transcripts := st.transcripts
          ++ (if ci ≠ "" then [{ id := now + 1, speaker := Speaker.user, text := ci }] else [])
          ++ (if co ≠ "" then [{ id := now + 2, speaker := Speaker.tutor, text := co }] else [])
        currentInput := ""
        currentOutput := "" }
    else { st with currentInput := ci, currentOutput := co }
  match msg.modelTurnAudio with
  | none => (afterTurn, none)
  | some audioData =>
    let start := max afterTurn.nextStartTime currentTime
    let dur := audioBufferDuration (decode audioData) 24000 1
    ({ afterTurn with
        nextStartTime := start + dur
        sources := nodeId :: afterTurn.sources },
      some (start, dur))

/-- One inbound delivery: the message together with the clock value and the
fresh identifiers observed by that handler invocation. -/
structure LiveInbound where
  msg : LiveServerContent
  currentTime : ℚ
  now : Nat
  nodeId : Nat

/-- Fold `onmessage` over a sequence of inbound deliveries, collecting the
scheduled chunks in order. -/
def runMessages (st : LiveSessionState) : List LiveInbound → LiveSessionState × List (ℚ × ℚ)
  | [] => (st, [])
  | ev :: rest =>
    let r1 := onmessage st ev.msg ev.currentTime ev.now ev.nodeId
    let r2 := runMessages r1.1 rest
    (r2.1, (match r1.2 with | some e => [e] | none => []) ++ r2.2)

/-- Scheduled chunks `(start, duration)` chain without overlap from a base
time: each start is at least the base, and the next base is the chunk's end. -/
def Chained : ℚ → List (ℚ × ℚ) → Prop
  | _, [] => True
  | t, e :: rest => t ≤ e.1 ∧ Chained (e.1 + e.2) rest

/-- The user-side fragment buffer as it stands inside the handler after
appending this message's input transcription (`fullInput` in the source). -/
def fullInput (st : LiveSessionState) (msg : LiveServerContent) : String :=
  match msg.inputTranscription with
  | some t => st.currentInput ++ t
  | none => st.currentInput

/-- The tutor-side fragment buffer as it stands inside the handler after
appending this message's output transcription (`fullOutput` in the source). -/
def fullOutput (st : LiveSessionState) (msg : LiveServerContent) : String :=
  match msg.outputTranscription with
  | some t => st.currentOutput ++ t
  | none => st.currentOutput

/-! ## Session lifecycle: `stopConversation` and the failure paths (TutorPanel)

`stopConversation` closes the session (best effort), stops the microphone
tracks, disconnects and detaches the capture node chain, closes both audio
contexts if not already closed, and nulls every lifecycle reference.  The
state splits the refs held by the component from the state of the underlying
browser objects (tracks, contexts, nodes), so that "tracks stopped after the
ref was nulled" is expressible. -/

/-- The underlying browser objects the component has touched. -/
structure SessionWorld where
  micAcquired : Bool
  micTracksStopped : Bool
  sessionClosed : Bool
  inputCtxCreated : Bool
  inputCtxClosed : Bool
  outputCtxCreated : Bool
  outputCtxClosed : Bool
  procConnected : Bool
  procCallbackAttached : Bool
  sourceConnected : Bool
deriving DecidableEq

/-- Which lifecycle refs are non-null (`sessionPromiseRef`, `mediaStreamRef`,
and the four fields of `audioContextRefs.current`). -/
structure SessionRefs where
  sessionPromise : Bool
  mediaStream : Bool
  inputCtx : Bool
  outputCtx : Bool
  scriptProcessor : Bool
  source : Bool
deriving DecidableEq

/-- The TutorPanel state visible to the lifecycle handlers. -/
structure TutorState where
  isRecording : Bool
  error : Option String
  world : SessionWorld
  refs : SessionRefs
deriving DecidableEq

/-- All lifecycle refs null. -/
def SessionRefs.allNull (r : SessionRefs) : Prop :=
  r.sessionPromise = false ∧ r.mediaStream = false ∧ r.inputCtx = false ∧
  r.outputCtx = false ∧ r.scriptProcessor = false ∧ r.source = false

/-- The null-refs record assigned by `stopConversation`. -/
def noRefs : SessionRefs :=
  { sessionPromise := false, mediaStream := false, inputCtx := false,
    outputCtx := false, scriptProcessor := false, source := false }

/-- `stopConversation`, statement by statement: clear `isRecording`; await and
close the session if the promise ref is set (errors caught and logged), null
it; stop every track of the media stream if set, null it; disconnect the
script processor and detach its `onaudioprocess` callback; disconnect the
source node; close each audio context unless already closed; reset the refs
record to all-null. -/
def stopConversation (s : TutorState) : TutorState :=
  let w0 := s.world
  let w1 := if s.refs.sessionPromise then { w0 with sessionClosed := true } else w0
  let w2 := if s.refs.mediaStream then { w1 with micTracksStopped := true } else w1
  let w3 := if s.refs.scriptProcessor then
      { w2 with procConnected := false, procCallbackAttached := false } else w2
  let w4 := if s.refs.source then { w3 with sourceConnected := false } else w3
  let w5 := if s.refs.inputCtx && !w4.inputCtxClosed then
      { w4 with inputCtxClosed := true } else w4
  let w6 := if s.refs.outputCtx && !w5.outputCtxClosed then
      { w5 with outputCtxClosed := true } else w5
  { isRecording := false, error := s.error, world := w6, refs := noRefs }

/-- The `onerror` callback of the live session: set the user-visible error
message, then run the same teardown as stop. -/
def onerrorHandler (s : TutorState) : TutorState :=
  stopConversation { s with error := some "An error occurred during the session." }

/-- The `catch` branch of `startConversation`: set the error message from the
thrown value, then run the same teardown as stop. -/
def startFailureHandler (s : TutorState) (message : String) : TutorState :=
  stopConversation { s with error := some message }

/-- Coherence of a reachable TutorPanel state: every browser object the
component has created is still held by its lifecycle ref (the source assigns
`mediaStreamRef.current` and the context refs immediately on creation, and
only `stopConversation` nulls them). -/
def refsCoherent (s : TutorState) : Prop :=
  (s.world.micAcquired = true → s.refs.mediaStream = true) ∧
  (s.world.inputCtxCreated = true → s.refs.inputCtx = true) ∧
  (s.world.outputCtxCreated = true → s.refs.outputCtx = true)

/-- A fully-active session state: microphone acquired, both contexts open,
capture chain connected, every lifecycle ref held. -/
def activeState : TutorState :=
  { isRecording := true
    error := none
    world :=
      { micAcquired := true, micTracksStopped := false, sessionClosed := false,
        inputCtxCreated := true, inputCtxClosed := false,
        outputCtxCreated := true, outputCtxClosed := false,
        procConnected := true, procCallbackAttached := true, sourceConnected := true }
    refs :=
      { sessionPromise := true, mediaStream := true, inputCtx := true,
        outputCtx := true, scriptProcessor := true, source := true } }

/-- The idle state: nothing acquired, every lifecycle ref null. -/
def idleState : TutorState :=
  { isRecording := false
    error := none
    world :=
      { micAcquired := false, micTracksStopped := false, sessionClosed := false,
        inputCtxCreated := false, inputCtxClosed := false,
        outputCtxCreated := false, outputCtxClosed := false,
        procConnected := false, procCallbackAttached := false, sourceConnected := false }
    refs := noRefs }

/-! ## One-shot explanation playback (ExamPanel) -/

/-- Model of `generateSpeech`: the remote TTS call either rejects, resolves
without an inline audio payload (which raises inside the `try` and is
caught), or resolves with the base64 payload.  Both caught branches return
null; the function itself never rejects. -/
def generateSpeech (outcome : Except Unit (Option String)) : Option String :=
  match outcome with
  | .error _ => none
  | .ok none => none
  | .ok (some audioData) => some audioData

/-- The ExamPanel audio state: per-question loading and playing markers and
the retained buffer-source node (`audioSourceRef`). -/
structure ExamAudioState where
  audioLoading : Option Nat
  audioPlaying : Option Nat
  audioSourceRef : Option Nat
deriving DecidableEq

/-- Effects on buffer-source nodes, in program order. -/
inductive AudioEvent
  | stopped (node : Nat)
  | started (node : Nat)
deriving DecidableEq

/-- `stopCurrentAudio`: stop and disconnect the retained source node if any,
null the ref, clear the playing state. -/
def stopCurrentAudio (s : ExamAudioState) : ExamAudioState × List AudioEvent :=
  match s.audioSourceRef with
  | some n =>
    ({ s with audioSourceRef := none, audioPlaying := none }, [AudioEvent.stopped n])
  | none => ({ s with audioPlaying := none }, [])

/-- `handlePlayExplanation` for question `qid`.  `speech` is the awaited
`generateSpeech` result, `newNode` the buffer-source node created on
success.  Returns the final state, the ordered stop/start effects, and
whether the `catch` block logged an error. -/
def handlePlayExplanation (s : ExamAudioState) (qid : Nat) (speech : Option String)
    (newNode : Nat) : ExamAudioState × List AudioEvent × Bool :=
  if s.audioPlaying = some qid then
    let r := stopCurrentAudio s
    (r.1, r.2, false)
  else
    let r := stopCurrentAudio s
    match speech with
    | none =>
      ({ r.1 with audioLoading := none }, r.2, true)
    | some _ =>
      ({ audioLoading := none, audioPlaying := some qid, audioSourceRef := some newNode },
        r.2 ++ [AudioEvent.started newNode], false)

/-! ## App difficulty level and exam services -/

/-- types.ts `Question`. -/
structure Question where
  id : Int
  questionText : String
deriving DecidableEq

/-- types.ts `Exam`. -/
abbrev Exam := List Question

/-- types.ts `Feedback`. -/
structure Feedback where
  questionId : Int
  isCorrect : Bool
  explanation : String
deriving DecidableEq

/-- types.ts `ExamResult`. -/
structure ExamResult where
  score : ℚ
  feedback : List Feedback
deriving DecidableEq

/-- The App component state the exam flow touches. -/
structure AppState where
  difficultyLevel : Nat
  currentExam : Option Exam
  examResult : Option ExamResult
deriving DecidableEq

/-- `useState(1)` and friends: the initial App state. -/
def initialAppState : AppState :=
  { difficultyLevel := 1, currentExam := none, examResult := none }

/-- `handleExamComplete`: store result and exam; if the score is over 70,
raise the difficulty by one, capping at 10. -/
def handleExamComplete (s : AppState) (result : ExamResult) (exam : Exam) : AppState :=
  { difficultyLevel :=
      if result.score > 70 then min (s.difficultyLevel + 1) 10 else s.difficultyLevel
    currentExam := some exam
    examResult := some result }

/-- The fallback exam returned when generation fails. -/
def fallbackExam : Exam :=
  [{ id := 1, questionText := "Could not generate an exam. Please try again." }]

/-- `generateExam`: the remote call plus JSON parse reified as an outcome;
any rejection inside the `try` is caught and mapped to the fallback exam. -/
def generateExam (outcome : Except Unit Exam) : Exam :=
  match outcome with
  | .ok exam => exam
  | .error _ => fallbackExam

/-- `answers[q.id] || "No answer provided"`: JS `||` substitutes the default
both for a missing answer and for the empty string (falsy). -/
def answerOrDefault (answers : Int → Option String) (qid : Int) : String :=
  match answers qid with
  | some a => if a = "" then "No answer provided" else a
  | none => "No answer provided"

/-- The `formattedAnswers` question/answer pairs embedded in the grading
prompt. -/
def formattedAnswers (exam : Exam) (answers : Int → Option String) :
    List (String × String) :=
  exam.map (fun q => (q.questionText, answerOrDefault answers q.id))

/-- `gradeExam`: on rejection of the remote call / parse, returns score 0
with one incorrect feedback entry per question of the input exam. -/
def gradeExam (exam : Exam) (outcome : Except Unit ExamResult) : ExamResult :=
  match outcome with
  | .ok result => result
  | .error _ =>
    { score := 0
      feedback := exam.map (fun q =>
        { questionId := q.id, isCorrect := false,
          explanation := "Sorry, there was an error grading this question." }) }

/-! ## Lemmas and claim theorems -/

lemma b64d_b64c : ∀ n, n < 64 → b64d (b64c n) = n := by decide

lemma b64c_ne_pad : ∀ n, n < 64 → b64c n ≠ '=' := by decide

lemma atob_btoa : ∀ bytes : List Nat, (∀ b ∈ bytes, b < 256) → atob (btoa bytes) = bytes
  | [], _ => by simp [btoa, atob]
  | [b0], h => by
    have hb0 : b0 < 256 := h b0 (by simp)
    have h0 : b0 / 4 < 64 := by omega
    have h1 : b0 % 4 * 16 < 64 := by omega
    simp only [btoa, atob, if_true, b64d_b64c _ h0, b64d_b64c _ h1, List.cons.injEq, and_true]
    omega
  | [b0, b1], h => by
    have hb0 : b0 < 256 := h b0 (by simp)
    have hb1 : b1 < 256 := h b1 (by simp)
    have h0 : b0 / 4 < 64 := by omega
    have h1 : b0 % 4 * 16 + b1 / 16 < 64 := by omega
    have h2 : b1 % 16 * 4 < 64 := by omega
    simp only [btoa, atob, if_neg (b64c_ne_pad _ h2), if_true,
      b64d_b64c _ h0, b64d_b64c _ h1, b64d_b64c _ h2, List.cons.injEq, and_true]
    constructor <;> omega
  | b0 :: b1 :: b2 :: rest, h => by
    have hb0 : b0 < 256 := h b0 (by simp)
    have hb1 : b1 < 256 := h b1 (by simp)
    have hb2 : b2 < 256 := h b2 (by simp)
    have h0 : b0 / 4 < 64 := by omega
    have h1 : b0 % 4 * 16 + b1 / 16 < 64 := by omega
    have h2 : b1 % 16 * 4 + b2 / 64 < 64 := by omega
    have h3 : b2 % 64 < 64 := by omega
    have ih : atob (btoa rest) = rest :=
      atob_btoa rest (fun b hb => h b (by simp [hb]))
    simp only [btoa, atob, if_neg (b64c_ne_pad _ h2), if_neg (b64c_ne_pad _ h3),
      b64d_b64c _ h0, b64d_b64c _ h1, b64d_b64c _ h2, b64d_b64c _ h3, ih,
      List.cons.injEq]
    refine ⟨by omega, by omega, by omega, trivial⟩

lemma ratTrunc_spec (q : ℚ) :
    q - 1 < (ratTrunc q : ℚ) ∧ (ratTrunc q : ℚ) < q + 1 ∧
    (0 ≤ q → 0 ≤ ratTrunc q ∧ (ratTrunc q : ℚ) ≤ q) ∧ (q < 0 → ratTrunc q ≤ 0) := by
  by_cases hq : 0 ≤ q
  · have h1 := Int.sub_one_lt_floor q
    have h2 := Int.floor_le q
    have h3 : 0 ≤ ⌊q⌋ := Int.floor_nonneg.mpr hq
    simp only [ratTrunc, if_pos hq]
    exact ⟨h1, by linarith, fun _ => ⟨h3, h2⟩, fun h => absurd h (not_lt.mpr hq)⟩
  · push_neg at hq
    have h1 := Int.sub_one_lt_floor (-q)
    have h2 := Int.floor_le (-q)
    have h3 : 0 ≤ ⌊-q⌋ := Int.floor_nonneg.mpr (by linarith)
    simp only [ratTrunc, if_neg (not_le.mpr hq)]
    push_cast
    exact ⟨by linarith, by linarith, fun h => absurd h (not_le.mpr hq), fun _ => by
      have : (0 : ℚ) ≤ (⌊-q⌋ : ℚ) := by exact_mod_cast h3
      linarith⟩

lemma toInt16_eq_ratTrunc (q : ℚ) (h1 : -32768 ≤ ratTrunc q) (h2 : ratTrunc q ≤ 32767) :
    toInt16 q = ratTrunc q := by
  simp only [toInt16]
  split <;> omega

lemma toInt16_range (q : ℚ) : -32768 ≤ toInt16 q ∧ toInt16 q ≤ 32767 := by
  simp only [toInt16]
  constructor <;> (split <;> omega)

lemma toInt16_sample (x : ℚ) (h1 : -1 ≤ x) (h2 : x < 1) :
    -32768 ≤ toInt16 (x * 32768) ∧ toInt16 (x * 32768) ≤ 32767 ∧
    |((toInt16 (x * 32768) : ℚ)) / 32768 - x| ≤ 1 / 32768 := by
  obtain ⟨ha, hb, hc, hd⟩ := ratTrunc_spec (x * 32768)
  have ht1 : -32768 ≤ ratTrunc (x * 32768) := by
    have hcast : ((-32769 : ℤ) : ℚ) < (ratTrunc (x * 32768) : ℚ) := by push_cast; nlinarith
    have hz : (-32769 : ℤ) < ratTrunc (x * 32768) := by exact_mod_cast hcast
    omega
  have ht2 : ratTrunc (x * 32768) ≤ 32767 := by
    by_cases hx : 0 ≤ x
    · obtain ⟨-, hle⟩ := hc (by positivity)
      have hcast : (ratTrunc (x * 32768) : ℚ) < ((32768 : ℤ) : ℚ) := by push_cast; nlinarith
      have hz : ratTrunc (x * 32768) < (32768 : ℤ) := by exact_mod_cast hcast
      omega
    · push_neg at hx
      have := hd (by nlinarith)
      omega
  rw [toInt16_eq_ratTrunc _ ht1 ht2]
  refine ⟨ht1, ht2, abs_le.mpr ⟨by linarith, by linarith⟩⟩

lemma int16ToBytesLE_lt (v : ℤ) : ∀ b ∈ int16ToBytesLE v, b < 256 := by
  intro b hb
  simp only [int16ToBytesLE, List.mem_cons, List.not_mem_nil, or_false] at hb
  rcases hb with h | h <;> subst h <;> omega

lemma bytesToInt16LE_int16ToBytesLE (v : ℤ) (rest : List Nat)
    (h1 : -32768 ≤ v) (h2 : v ≤ 32767) :
    bytesToInt16LE (int16ToBytesLE v ++ rest) = v :: bytesToInt16LE rest := by
  have hu : (v % 65536).toNat % 256 + 256 * ((v % 65536).toNat / 256) = (v % 65536).toNat := by
    omega
  show bytesToInt16LE ((v % 65536).toNat % 256 :: ((v % 65536).toNat / 256 :: rest))
      = v :: bytesToInt16LE rest
  simp only [bytesToInt16LE, hu, List.cons.injEq, and_true]
  rw [uint16ToSigned]
  split <;> omega

lemma bytesToInt16LE_flatMap (l : List ℤ) (h : ∀ v ∈ l, -32768 ≤ v ∧ v ≤ 32767) :
    bytesToInt16LE (l.flatMap int16ToBytesLE) = l := by
  induction l with
  | nil => rfl
  | cons a t ih =>
    obtain ⟨h1, h2⟩ := h a (by simp)
    rw [List.flatMap_cons, bytesToInt16LE_int16ToBytesLE a _ h1 h2,
      ih (fun v hv => h v (by simp [hv]))]

lemma range_map_getD (l : List ℤ) (f : ℤ → ℚ) :
    (List.range l.length).map (fun i => f (l.getD i 0)) = l.map f := by
  induction l with
  | nil => rfl
  | cons a t ih =>
    rw [List.length_cons, List.range_succ_eq_map, List.map_cons, List.map_map]
    have hcomp : ((fun i => f ((a :: t).getD i 0)) ∘ Nat.succ) = (fun i => f (t.getD i 0)) := rfl
    rw [hcomp, ih, List.map_cons]
    rfl

lemma decodeAudioData_one (data : List Nat) :
    decodeAudioData data 1 = [(bytesToInt16LE data).map (fun v : ℤ => (v : ℚ) / 32768)] := by
  have hr1 : List.range 1 = [0] := rfl
  simp only [decodeAudioData, hr1, List.map_cons, List.map_nil, Nat.div_one,
    Nat.mul_one, Nat.add_zero]
  congr 1
  exact range_map_getD (bytesToInt16LE data) (fun v : ℤ => (v : ℚ) / 32768)

lemma getD_map (l : List ℚ) (g : ℚ → ℚ) : ∀ i, i < l.length → (l.map g).getD i 0 = g (l.getD i 0) := by
  induction l with
  | nil => intro i hi; simp at hi
  | cons a t ih =>
    intro i hi
    cases i with
    | zero => simp
    | succ n => simpa using ih n (by simpa using hi)

lemma getD_mem (l : List ℚ) : ∀ i, i < l.length → l.getD i 0 ∈ l := by
  induction l with
  | nil => intro i hi; simp at hi
  | cons a t ih =>
    intro i hi
    cases i with
    | zero => simp
    | succ n => simpa using Or.inr (ih n (by simpa using hi))

lemma roundTrip_eq_map (frame : List ℚ) :
    roundTrip frame = frame.map (fun x => ((toInt16 (x * 32768) : ℚ)) / 32768) := by
  have hbytes : ∀ b ∈ (frame.map (fun x => toInt16 (x * 32768))).flatMap int16ToBytesLE,
      b < 256 := by
    intro b hb
    rw [List.mem_flatMap] at hb
    obtain ⟨v, -, hv⟩ := hb
    exact int16ToBytesLE_lt v b hv
  have hrange : ∀ v ∈ frame.map (fun x => toInt16 (x * 32768)), -32768 ≤ v ∧ v ≤ 32767 := by
    intro v hv
    rw [List.mem_map] at hv
    obtain ⟨x, -, rfl⟩ := hv
    exact toInt16_range _
  unfold roundTrip createBlob encode decode
  rw [atob_btoa _ hbytes, decodeAudioData_one, bytesToInt16LE_flatMap _ hrange]
  simp only [List.getD_cons_zero, List.map_map]
  rfl

/-- C3 (amended): for every frame of samples each in the half-open interval
[-1, 1), encoding with `createBlob` (scale by 32768 into an `Int16Array`,
base64-encode) and decoding with `decode` + `decodeAudioData` (int16 divided
by 32768) recovers each sample to within 1/32768 absolute error.  (At a
sample exactly equal to 1 the `ToInt16` store wraps to -32768, see the
counterexample below.) -/
theorem createBlob_decode_roundTrip_bound (frame : List ℚ)
    (h : ∀ x ∈ frame, -1 ≤ x ∧ x < 1) : recoveredWithinBound frame := by
  rw [recoveredWithinBound, roundTrip_eq_map frame]
  refine ⟨by simp, fun i hi => ?_⟩
  rw [getD_map frame _ i hi]
  obtain ⟨hx1, hx2⟩ := h _ (getD_mem frame i hi)
  exact (toInt16_sample _ hx1 hx2).2.2

/-- C3 witness: a concrete frame inside [-1, 1) is recovered within the
quantization bound. -/
theorem createBlob_decode_roundTrip_bound_witness :
    recoveredWithinBound [(1 : ℚ)/2, -1/2, 0] :=
  createBlob_decode_roundTrip_bound [(1 : ℚ)/2, -1/2, 0]
    (by intro x hx; fin_cases hx <;> norm_num)

/-- C3 counterexample: the sample 1 lies in the claimed interval [-1, 1], but
the encode/decode round trip maps the frame [1] to [-1] (the `Int16Array`
store of 1 * 32768 wraps to -32768), an error of 2, far above 1/32768. -/
theorem createBlob_roundTrip_fails_at_one :
    ((-1 : ℚ) ≤ 1 ∧ (1 : ℚ) ≤ 1) ∧ roundTrip [(1 : ℚ)] = [-1] ∧
      ¬ recoveredWithinBound [(1 : ℚ)] := by
  have hwrap : toInt16 ((1 : ℚ) * 32768) = -32768 := by
    have h1 : ratTrunc ((1 : ℚ) * 32768) = 32768 := by
      rw [ratTrunc, if_pos (by norm_num)]
      rw [show ((1 : ℚ) * 32768) = ((32768 : ℤ) : ℚ) by norm_num]
      exact Int.floor_intCast 32768
    simp only [toInt16, h1]
    decide
  have hval : roundTrip [(1 : ℚ)] = [-1] := by
    rw [roundTrip_eq_map, List.map_cons, List.map_nil, hwrap]
    norm_num
  refine ⟨by norm_num, hval, ?_⟩
  rw [recoveredWithinBound]
  intro hclaim
  have h0 := hclaim.2 0 (by simp)
  rw [hval] at h0
  norm_num at h0

/-- C6: for every captured frame, the chunk produced by `createBlob` has
`data` equal to the base64 encoding of the frame's samples converted to
16-bit little-endian signed PCM, and `mimeType` exactly
"audio/pcm;rate=16000". -/
theorem createBlob_format (frame : List ℚ) :
    (createBlob frame).data = specOutboundData frame ∧
    (createBlob frame).mimeType = "audio/pcm;rate=16000" := by
  refine ⟨?_, rfl⟩
  simp only [createBlob, encode, specOutboundData, List.flatMap_map]

lemma audioBufferDuration_nonneg (data : List Nat) (sr ch : Nat) :
    0 ≤ audioBufferDuration data sr ch := by
  unfold audioBufferDuration
  positivity

lemma onmessage_spec_none (st : LiveSessionState) (msg : LiveServerContent) (ct : ℚ)
    (now nid : Nat) (hm : msg.modelTurnAudio = none) :
    (onmessage st msg ct now nid).2 = none ∧
    (onmessage st msg ct now nid).1.nextStartTime = st.nextStartTime := by
  cases ht : msg.turnComplete <;> simp [onmessage, hm, ht]

lemma onmessage_spec_some (st : LiveSessionState) (msg : LiveServerContent) (ct : ℚ)
    (now nid : Nat) (d : List Char) (hm : msg.modelTurnAudio = some d) :
    (onmessage st msg ct now nid).2
        = some (max st.nextStartTime ct, audioBufferDuration (decode d) 24000 1) ∧
    (onmessage st msg ct now nid).1.nextStartTime
        = max st.nextStartTime ct + audioBufferDuration (decode d) 24000 1 := by
  cases ht : msg.turnComplete <;> simp [onmessage, hm, ht]

lemma Chained.mono {a b : ℚ} (h : a ≤ b) : ∀ l, Chained b l → Chained a l
  | [], _ => trivial
  | _ :: _, hc => ⟨le_trans h hc.1, hc.2⟩

lemma runMessages_spec (msgs : List LiveInbound) : ∀ st : LiveSessionState,
    st.nextStartTime ≤ (runMessages st msgs).1.nextStartTime ∧
    Chained st.nextStartTime (runMessages st msgs).2 := by
  induction msgs with
  | nil => exact fun st => ⟨le_refl _, trivial⟩
  | cons ev rest ih =>
    intro st
    obtain ⟨ih1, ih2⟩ := ih (onmessage st ev.msg ev.currentTime ev.now ev.nodeId).1
    cases hm : ev.msg.modelTurnAudio with
    | none =>
      obtain ⟨hev, hnext⟩ := onmessage_spec_none st ev.msg ev.currentTime ev.now ev.nodeId hm
      simp only [runMessages, hev, List.nil_append]
      rw [hnext] at ih1 ih2
      exact ⟨ih1, ih2⟩
    | some d =>
      obtain ⟨hev, hnext⟩ := onmessage_spec_some st ev.msg ev.currentTime ev.now ev.nodeId d hm
      have hd0 : 0 ≤ audioBufferDuration (decode d) 24000 1 :=
        audioBufferDuration_nonneg _ _ _
      rw [hnext] at ih1 ih2
      simp only [runMessages, hev, List.cons_append, List.nil_append]
      have hstep : st.nextStartTime ≤ max st.nextStartTime ev.currentTime
          + audioBufferDuration (decode d) 24000 1 :=
        le_trans (le_max_left _ _) (le_add_of_nonneg_right hd0)
      exact ⟨le_trans hstep ih1, le_max_left _ _, ih2⟩

/-- C1: over any sequence of inbound messages handled by the live-session
`onmessage` callback, the playback clock `nextStartTime` never decreases;
each audio-carrying message schedules its chunk at exactly
`max(current output-context clock time, accumulated clock value)` and then
advances the clock by exactly that chunk's buffer duration; consequently the
scheduled chunks chain without overlap (each start is at least the previous
chunk's scheduled end). -/
theorem playback_clock_monotone_gapless (st : LiveSessionState) (msgs : List LiveInbound) :
    st.nextStartTime ≤ (runMessages st msgs).1.nextStartTime ∧
    Chained st.nextStartTime (runMessages st msgs).2 ∧
    (∀ msg ct now nid d, msg.modelTurnAudio = some d →
      (onmessage st msg ct now nid).2
          = some (max st.nextStartTime ct, audioBufferDuration (decode d) 24000 1) ∧
      (onmessage st msg ct now nid).1.nextStartTime
          = max st.nextStartTime ct + audioBufferDuration (decode d) 24000 1) := by
  obtain ⟨h1, h2⟩ := runMessages_spec msgs st
  exact ⟨h1, h2, fun msg ct now nid d hd => onmessage_spec_some st msg ct now nid d hd⟩

/-- C1 witness: the per-chunk scheduling equations at a concrete state and
message. -/
theorem playback_clock_monotone_gapless_witness :
    (onmessage ⟨"", "", [], 0, []⟩ ⟨none, none, false, some ['A', 'A', 'A', 'A']⟩ 5 100 1).2
        = some (max (0 : ℚ) 5, audioBufferDuration (decode ['A', 'A', 'A', 'A']) 24000 1) ∧
    (onmessage ⟨"", "", [], 0, []⟩ ⟨none, none, false, some ['A', 'A', 'A', 'A']⟩ 5 100 1).1.nextStartTime
        = max (0 : ℚ) 5 + audioBufferDuration (decode ['A', 'A', 'A', 'A']) 24000 1 :=
  (playback_clock_monotone_gapless ⟨"", "", [], 0, []⟩ []).2.2
    ⟨none, none, false, some ['A', 'A', 'A', 'A']⟩ 5 100 1 ['A', 'A', 'A', 'A'] rfl

/-- C2: a message carrying the turn-complete signal appends exactly one
transcript entry per non-empty fragment buffer — the user entry from the
input buffer first, then the tutor entry from the output buffer — appends
nothing for an empty buffer, and resets both buffers to the empty string in
the same handler invocation. -/
theorem turn_complete_emits_and_clears (st : LiveSessionState) (msg : LiveServerContent)
    (ct : ℚ) (now nid : Nat) (h : msg.turnComplete = true) :
    (onmessage st msg ct now nid).1.currentInput = "" ∧
    (onmessage st msg ct now nid).1.currentOutput = "" ∧
    (onmessage st msg ct now nid).1.transcripts
      = st.transcripts
        ++ (if fullInput st msg ≠ "" then
              [{ id := now + 1, speaker := Speaker.user, text := fullInput st msg }] else [])
        ++ (if fullOutput st msg ≠ "" then
              [{ id := now + 2, speaker := Speaker.tutor, text := fullOutput st msg }] else []) := by
  cases hm : msg.modelTurnAudio <;>
    simp [onmessage, hm, h, fullInput, fullOutput]

/-- C2 witness: the spec scenario — one inbound message with output
transcription "Hi" and turn-complete produces exactly one tutor entry and
leaves both buffers empty. -/
theorem turn_complete_emits_and_clears_witness :
    (onmessage ⟨"", "", [], 0, []⟩ ⟨none, some "Hi", true, none⟩ 0 100 0).1.currentInput = "" ∧
    (onmessage ⟨"", "", [], 0, []⟩ ⟨none, some "Hi", true, none⟩ 0 100 0).1.currentOutput = "" ∧
    (onmessage ⟨"", "", [], 0, []⟩ ⟨none, some "Hi", true, none⟩ 0 100 0).1.transcripts
      = [{ id := 102, speaker := Speaker.tutor, text := "Hi" }] := by
  have h := turn_complete_emits_and_clears ⟨"", "", [], 0, []⟩ ⟨none, some "Hi", true, none⟩
    0 100 0 rfl
  refine ⟨h.1, h.2.1, ?_⟩
  rw [h.2.2]
  simp [fullInput, fullOutput]

/-- Closed form of `stopConversation` (the ref being set forces the
corresponding world transition; refs end all-null). -/
lemma stopConversation_eq (s : TutorState) :
    stopConversation s =
      { isRecording := false
        error := s.error
        world :=
          { micAcquired := s.world.micAcquired
            micTracksStopped := s.refs.mediaStream || s.world.micTracksStopped
            sessionClosed := s.refs.sessionPromise || s.world.sessionClosed
            inputCtxCreated := s.world.inputCtxCreated
            inputCtxClosed := s.refs.inputCtx || s.world.inputCtxClosed
            outputCtxCreated := s.world.outputCtxCreated
            outputCtxClosed := s.refs.outputCtx || s.world.outputCtxClosed
            procConnected := !s.refs.scriptProcessor && s.world.procConnected
            procCallbackAttached := !s.refs.scriptProcessor && s.world.procCallbackAttached
            sourceConnected := !s.refs.source && s.world.sourceConnected }
        refs := noRefs } := by
  rcases s with ⟨rec, err, ⟨ma, mts, sc, icc, icd, occ, ocd, pc, pca, srcc⟩,
    ⟨rs, rm, ri, ro, rp, rsrc⟩⟩
  simp only [stopConversation]
  cases rs <;> cases rm <;> cases ri <;> cases ro <;> cases rp <;> cases rsrc <;>
    cases icd <;> cases ocd <;> rfl

/-- C4: any failure handled by the `onerror` callback (and likewise by the
`catch` branch of `startConversation`) sets a user-visible error message and
performs exactly the teardown of `stopConversation`: afterwards the
microphone tracks are stopped, both audio contexts are closed, and all
lifecycle references are null. -/
theorem onerror_teardown (s : TutorState) (h : refsCoherent s) :
    (onerrorHandler s).error = some "An error occurred during the session." ∧
    ((onerrorHandler s).world.micAcquired = true →
      (onerrorHandler s).world.micTracksStopped = true) ∧
    ((onerrorHandler s).world.inputCtxCreated = true →
      (onerrorHandler s).world.inputCtxClosed = true) ∧
    ((onerrorHandler s).world.outputCtxCreated = true →
      (onerrorHandler s).world.outputCtxClosed = true) ∧
    (onerrorHandler s).refs.allNull ∧
    (onerrorHandler s).world = (stopConversation s).world ∧
    (onerrorHandler s).refs = (stopConversation s).refs ∧
    (∀ message, (startFailureHandler s message).error = some message ∧
      (startFailureHandler s message).world = (stopConversation s).world ∧
      (startFailureHandler s message).refs = (stopConversation s).refs) := by
  obtain ⟨hm, hi, ho⟩ := h
  refine ⟨?_, ?_, ?_, ?_, ?_, ?_, ?_, fun message => ⟨?_, ?_, ?_⟩⟩
  · simp [onerrorHandler, stopConversation_eq]
  · simp only [onerrorHandler, stopConversation_eq]
    intro hc
    rw [hm hc]
    rfl
  · simp only [onerrorHandler, stopConversation_eq]
    intro hc
    rw [hi hc]
    rfl
  · simp only [onerrorHandler, stopConversation_eq]
    intro hc
    rw [ho hc]
    rfl
  · simp [onerrorHandler, stopConversation_eq, SessionRefs.allNull, noRefs]
  · simp [onerrorHandler, stopConversation_eq]
  · simp [onerrorHandler, stopConversation_eq]
  · simp [startFailureHandler, stopConversation_eq]
  · simp [startFailureHandler, stopConversation_eq]
  · simp [startFailureHandler, stopConversation_eq]

/-- C4 witness: teardown from a concrete fully-active state. -/
theorem onerror_teardown_witness :
    ((onerrorHandler activeState).error = some "An error occurred during the session." ∧
      ((onerrorHandler activeState).world.micAcquired = true →
        (onerrorHandler activeState).world.micTracksStopped = true) ∧
      ((onerrorHandler activeState).world.inputCtxCreated = true →
        (onerrorHandler activeState).world.inputCtxClosed = true) ∧
      ((onerrorHandler activeState).world.outputCtxCreated = true →
        (onerrorHandler activeState).world.outputCtxClosed = true) ∧
      (onerrorHandler activeState).refs.allNull ∧
      (onerrorHandler activeState).world = (stopConversation activeState).world ∧
      (onerrorHandler activeState).refs = (stopConversation activeState).refs ∧
      (∀ message, (startFailureHandler activeState message).error = some message ∧
        (startFailureHandler activeState message).world = (stopConversation activeState).world ∧
        (startFailureHandler activeState message).refs = (stopConversation activeState).refs)) :=
  onerror_teardown activeState ⟨fun _ => rfl, fun _ => rfl, fun _ => rfl⟩

/-- C5: `stopConversation` is idempotent, leaves every lifecycle reference
null with recording off and the capture callback detached, and is a safe
no-op (beyond clearing `isRecording`) from the idle state where no resources
are held. -/
theorem stopConversation_idempotent (s : TutorState) :
    stopConversation (stopConversation s) = stopConversation s ∧
    (stopConversation s).refs.allNull ∧
    (stopConversation s).isRecording = false ∧
    ((stopConversation s).world.procCallbackAttached = true →
      s.world.procCallbackAttached = true ∧ s.refs.scriptProcessor = false) ∧
    (s.refs.allNull → stopConversation s = { s with isRecording := false }) := by
  refine ⟨?_, ?_, ?_, ?_, ?_⟩
  · rw [stopConversation_eq s, stopConversation_eq]
    simp [noRefs]
  · rw [stopConversation_eq s]
    simp [SessionRefs.allNull, noRefs]
  · rw [stopConversation_eq s]
  · rw [stopConversation_eq s]
    intro hc
    simp only [Bool.and_eq_true, Bool.not_eq_true'] at hc
    exact ⟨hc.2, hc.1⟩
  · intro hn
    obtain ⟨h1, h2, h3, h4, h5, h6⟩ := hn
    rcases s with ⟨rec, err, w, r⟩
    rcases r with ⟨rs, rm, ri, ro, rp, rsrc⟩
    simp only at h1 h2 h3 h4 h5 h6
    subst h1 h2 h3 h4 h5 h6
    rw [stopConversation_eq]
    rfl

/-- C5 witness: stopping from the idle state (no resources held) is exactly
the recording-flag reset, and all post-stop facts hold there. -/
theorem stopConversation_idempotent_witness :
    stopConversation (stopConversation idleState) = stopConversation idleState ∧
    (stopConversation idleState).refs.allNull ∧
    (stopConversation idleState).isRecording = false ∧
    ((stopConversation idleState).world.procCallbackAttached = true →
      idleState.world.procCallbackAttached = true ∧ idleState.refs.scriptProcessor = false) ∧
    (idleState.refs.allNull →
      stopConversation idleState = { idleState with isRecording := false }) :=
  stopConversation_idempotent idleState

/-- C7: `generateSpeech` returns null exactly when the remote call rejects or
the response carries no audio payload (it never rethrows); and a null result
in `handlePlayExplanation` leads only to a logged error — the loading state
is cleared, nothing is playing, no source node is started or retained. -/
theorem generateSpeech_null_degrades (outcome : Except Unit (Option String))
    (s : ExamAudioState) (qid newNode : Nat) (hq : s.audioPlaying ≠ some qid)
    (hs : generateSpeech outcome = none) :
    (generateSpeech outcome = none ↔ outcome = .error () ∨ outcome = .ok none) ∧
    (handlePlayExplanation s qid (generateSpeech outcome) newNode).2.2 = true ∧
    (handlePlayExplanation s qid (generateSpeech outcome) newNode).1.audioLoading = none ∧
    (handlePlayExplanation s qid (generateSpeech outcome) newNode).1.audioPlaying = none ∧
    (handlePlayExplanation s qid (generateSpeech outcome) newNode).1.audioSourceRef = none ∧
    (∀ n, AudioEvent.started n ∉
      (handlePlayExplanation s qid (generateSpeech outcome) newNode).2.1) := by
  have hiff : generateSpeech outcome = none ↔ outcome = .error () ∨ outcome = .ok none := by
    rcases outcome with u | p
    · cases u
      simp [generateSpeech]
    · cases p <;> simp [generateSpeech]
  refine ⟨hiff, ?_, ?_, ?_, ?_, ?_⟩ <;>
    (rw [hs]; cases hr : s.audioSourceRef <;>
      simp [handlePlayExplanation, stopCurrentAudio, hq, hr])

/-- C7 witness: a resolved call with an absent payload at a concrete state. -/
theorem generateSpeech_null_degrades_witness :
    (generateSpeech (.ok none) = none ↔
      (.ok none : Except Unit (Option String)) = .error () ∨ (.ok none : Except Unit (Option String)) = .ok none) ∧
    (handlePlayExplanation ⟨none, none, some 7⟩ 3 (generateSpeech (.ok none)) 9).2.2 = true ∧
    (handlePlayExplanation ⟨none, none, some 7⟩ 3 (generateSpeech (.ok none)) 9).1.audioLoading = none ∧
    (handlePlayExplanation ⟨none, none, some 7⟩ 3 (generateSpeech (.ok none)) 9).1.audioPlaying = none ∧
    (handlePlayExplanation ⟨none, none, some 7⟩ 3 (generateSpeech (.ok none)) 9).1.audioSourceRef = none ∧
    (∀ n, AudioEvent.started n ∉
      (handlePlayExplanation ⟨none, none, some 7⟩ 3 (generateSpeech (.ok none)) 9).2.1) :=
  generateSpeech_null_degrades (.ok none) ⟨none, none, some 7⟩ 3 9 (by simp) rfl

/-- C8: every `handlePlayExplanation` call stops and disconnects the
currently-retained source node (if any) before any new playback starts: the
effect list is exactly the stop of the previous node followed by the start
of the new one (the latter only when a new playback actually begins), and
any source retained afterwards is the newly started node. -/
theorem handlePlayExplanation_single_playback (s : ExamAudioState) (qid : Nat)
    (speech : Option String) (newNode : Nat) :
    (handlePlayExplanation s qid speech newNode).2.1
      = (match s.audioSourceRef with
         | some n => [AudioEvent.stopped n]
         | none => [])
        ++ (if s.audioPlaying ≠ some qid ∧ speech ≠ none then
              [AudioEvent.started newNode] else []) ∧
    (∀ m, (handlePlayExplanation s qid speech newNode).1.audioSourceRef = some m →
      m = newNode ∧ s.audioPlaying ≠ some qid ∧ speech ≠ none) := by
  by_cases hq : s.audioPlaying = some qid <;>
    rcases hr : s.audioSourceRef with _ | n <;>
      rcases hsp : speech with _ | a <;>
        simp [handlePlayExplanation, stopCurrentAudio, hq, hr]

/-- C9: the difficulty level starts at 1 and stays in 1..10:
`handleExamComplete` raises it by exactly one only for scores strictly above
70 (capping the result at 10) and leaves it unchanged for any score ≤ 70. -/
theorem difficulty_level_bounds (s : AppState) (result : ExamResult) (exam : Exam)
    (h1 : 1 ≤ s.difficultyLevel) (h2 : s.difficultyLevel ≤ 10) :
    initialAppState.difficultyLevel = 1 ∧
    1 ≤ (handleExamComplete s result exam).difficultyLevel ∧
    (handleExamComplete s result exam).difficultyLevel ≤ 10 ∧
    (result.score ≤ 70 →
      (handleExamComplete s result exam).difficultyLevel = s.difficultyLevel) ∧
    (70 < result.score →
      (handleExamComplete s result exam).difficultyLevel = min (s.difficultyLevel + 1) 10) := by
  have hlev : (handleExamComplete s result exam).difficultyLevel
      = if result.score > 70 then min (s.difficultyLevel + 1) 10 else s.difficultyLevel := rfl
  by_cases hsc : (70 : ℚ) < result.score
  · rw [hlev, if_pos hsc]
    exact ⟨rfl, by omega, by omega, fun hle => absurd hsc (not_lt.mpr hle), fun _ => rfl⟩
  · rw [hlev, if_neg hsc]
    exact ⟨rfl, h1, h2, fun _ => rfl, fun hgt => absurd hgt hsc⟩

/-- C9 witness: a score of 80 at level 1 moves the level to 2 = min 2 10. -/
theorem difficulty_level_bounds_witness :
    initialAppState.difficultyLevel = 1 ∧
    1 ≤ (handleExamComplete initialAppState ⟨80, []⟩ []).difficultyLevel ∧
    (handleExamComplete initialAppState ⟨80, []⟩ []).difficultyLevel ≤ 10 ∧
    ((80 : ℚ) ≤ 70 →
      (handleExamComplete initialAppState ⟨80, []⟩ []).difficultyLevel
        = initialAppState.difficultyLevel) ∧
    ((70 : ℚ) < 80 →
      (handleExamComplete initialAppState ⟨80, []⟩ []).difficultyLevel
        = min (initialAppState.difficultyLevel + 1) 10) :=
  difficulty_level_bounds initialAppState ⟨80, []⟩ [] (by norm_num [initialAppState])
    (by norm_num [initialAppState])

/-- C10: neither service function rejects (both are total on the reified
call outcome); on error `generateExam` returns exactly the one-question
fallback exam, and `gradeExam` returns score 0 with exactly one feedback
entry per question of the input exam, in order, each marked incorrect; the
grading prompt substitutes "No answer provided" for every question with no
answer. -/
theorem exam_service_fallbacks (exam : Exam) (answers : Int → Option String)
    (outcome : Except Unit ExamResult) (houtcome : outcome = .error ()) :
    generateExam (.error ()) = fallbackExam ∧
    fallbackExam
      = [{ id := 1, questionText := "Could not generate an exam. Please try again." }] ∧
    (∀ e, generateExam (.ok e) = e) ∧
    (gradeExam exam outcome).score = 0 ∧
    (gradeExam exam outcome).feedback.length = exam.length ∧
    (∀ f ∈ (gradeExam exam outcome).feedback, f.isCorrect = false) ∧
    (gradeExam exam outcome).feedback.map Feedback.questionId = exam.map Question.id ∧
    (∀ q ∈ exam, answers q.id = none →
      (q.questionText, "No answer provided") ∈ formattedAnswers exam answers) := by
  subst houtcome
  refine ⟨rfl, rfl, fun e => rfl, rfl, by simp [gradeExam], ?_, ?_, ?_⟩
  · intro f hf
    simp only [gradeExam, List.mem_map] at hf
    obtain ⟨q, -, rfl⟩ := hf
    rfl
  · simp [gradeExam, List.map_map]
  · intro q hq ha
    exact List.mem_map.mpr ⟨q, hq, by simp [answerOrDefault, ha]⟩

/-- C10 witness: a one-question exam with no answers, graded after a
rejected remote call. -/
theorem exam_service_fallbacks_witness :
    generateExam (.error ()) = fallbackExam ∧
    fallbackExam
      = [{ id := 1, questionText := "Could not generate an exam. Please try again." }] ∧
    (∀ e, generateExam (.ok e) = e) ∧
    (gradeExam [⟨1, "What is 2+2?"⟩] (.error ())).score = 0 ∧
    (gradeExam [⟨1, "What is 2+2?"⟩] (.error ())).feedback.length
      = [(⟨1, "What is 2+2?"⟩ : Question)].length ∧
    (∀ f ∈ (gradeExam [⟨1, "What is 2+2?"⟩] (.error ())).feedback, f.isCorrect = false) ∧
    (gradeExam [⟨1, "What is 2+2?"⟩] (.error ())).feedback.map Feedback.questionId
      = [(⟨1, "What is 2+2?"⟩ : Question)].map Question.id ∧
    (∀ q ∈ [(⟨1, "What is 2+2?"⟩ : Question)], (fun _ : Int => (none : Option String)) q.id = none →
      (q.questionText, "No answer provided")
        ∈ formattedAnswers [⟨1, "What is 2+2?"⟩] (fun _ => none)) :=
  exam_service_fallbacks [⟨1, "What is 2+2?"⟩] (fun _ => none) (.error ()) rfl

/-- C8 witness: starting question 2 while node 5 is playing question 1 stops
node 5 strictly before starting the new node 6, which is the one retained. -/
theorem handlePlayExplanation_single_playback_witness :
    (handlePlayExplanation ⟨none, some 1, some 5⟩ 2 (some "abc") 6).2.1
      = (match (⟨none, some 1, some 5⟩ : ExamAudioState).audioSourceRef with
         | some n => [AudioEvent.stopped n]
         | none => [])
        ++ (if (⟨none, some 1, some 5⟩ : ExamAudioState).audioPlaying ≠ some 2 ∧
              (some "abc" : Option String) ≠ none then
              [AudioEvent.started 6] else []) ∧
    (∀ m, (handlePlayExplanation ⟨none, some 1, some 5⟩ 2 (some "abc") 6).1.audioSourceRef
        = some m →
      m = 6 ∧ (⟨none, some 1, some 5⟩ : ExamAudioState).audioPlaying ≠ some 2 ∧
        (some "abc" : Option String) ≠ none) :=
  handlePlayExplanation_single_playback ⟨none, some 1, some 5⟩ 2 (some "abc") 6

end AITutor
